import Mathlib

/-!
Verification of the Atlas assistant core (src/altas.py): the reminder
scheduler loop, the dispatcher, the planner adapter, the action registry
and the input surfaces, shallowly embedded in Lean.

Time is modelled as natural-number seconds of a timezone-naive wall clock.
Python `timedelta(hours=1) / days=1 / weeks=1` are 3600 / 86400 / 604800
seconds. A reminder's `due_at` column holds text; `datetime.fromisoformat`
either yields a time or raises, so the column is modelled by `DueAt`:
`valid t` for a string parsing to time `t`, `invalid` for a string on which
parsing raises. `isoformat(timespec='minutes')` writes the timestamp up to
minutes, dropping seconds and finer, so a round trip through that
serialization truncates the time to a whole minute (`serializeMinutes`).
-/

namespace Atlas

/-- The parse status and value of a reminder's stored `due_at` text:
`datetime.fromisoformat(due_at)` either returns a time or raises. -/
inductive DueAt where
  | valid (t : Nat)
  | invalid
  deriving DecidableEq, Repr

/-- One row of the `reminders` table: `(id, text, due_at, repeat_rule)`,
where `repeat_rule` is a nullable TEXT column. -/
structure Reminder where
  id : Nat
  text : String
  due_at : DueAt
  repeat_rule : Option String
  deriving DecidableEq, Repr

/-- Round trip through `nxt.isoformat(timespec='minutes')`: the stored text
keeps only whole minutes, so the parsed value is truncated to a multiple
of 60 seconds. -/
def serializeMinutes (t : Nat) : Nat := t / 60 * 60

/-- The recurrence table of `scheduler_loop`, in the code's branch order:
`daily` adds one day, `hourly` one hour, `weekly` one week, and every
other rule string yields `nxt = None`. -/
def nextDue (rule : String) (due : Nat) : Option Nat :=
  if rule = "daily" then some (due + 86400)
  else if rule = "hourly" then some (due + 3600)
  else if rule = "weekly" then some (due + 604800)
  else none

/-- What `scheduler_loop` decides for one row of its snapshot: `keep` when
parsing `due_at` raises (the bare `continue`) or the reminder is not yet
due; `reschedule n` when the reminder fires and a recurrence period is
found (the `UPDATE` branch); `fireDelete` when it fires with no usable
rule (Python `if repeat_rule:` is false for `None` and for `""`). -/
inductive RowResult where
  | keep
  | reschedule (next : Nat)
  | fireDelete
  deriving DecidableEq, Repr

def rowStep (now : Nat) (r : Reminder) : RowResult :=
  match r.due_at with
  | .invalid => .keep
  | .valid due =>
    if due ≤ now then
      match r.repeat_rule with
      | none => .fireDelete
      | some s =>
        if s = "" then .fireDelete
        else
          match nextDue s due with
          | some n => .reschedule n
          | none => .fireDelete
    else .keep

/-- `UPDATE reminders SET due_at=? WHERE id=?` with the minute-serialized
new due time. -/
def applyUpdate (store : List Reminder) (rid : Nat) (newDue : Nat) : List Reminder :=
  store.map fun r => if r.id = rid then { r with due_at := .valid newDue } else r

/-- `DELETE FROM reminders WHERE id=?` (the body of `delete_reminder`). -/
def applyDelete (store : List Reminder) (rid : Nat) : List Reminder :=
  store.filter fun r => r.id ≠ rid

/-- A storage write the scheduler performs while processing one row; a
failure oracle over these models `sqlite3` raising on that write. -/
inductive StorageOp where
  | update (rid : Nat) (newDue : Nat)
  | delete (rid : Nat)
  deriving DecidableEq, Repr

/-- The `for` loop of one scheduler tick over the snapshot `rows`, with a
failure oracle for the storage writes. A raised storage error is caught
by the `try ... except Exception: pass` wrapping the whole tick body, so
it ends the tick: the store as mutated so far is the final state and the
remaining rows are left unprocessed. A parse failure of `due_at` is the
inner `except Exception: continue`, local to its row. -/
def runRows (fail : StorageOp → Bool) (now : Nat) :
    List Reminder → List Reminder → List Reminder
  | store, [] => store
  | store, r :: rest =>
    match rowStep now r with
    | .keep => runRows fail now store rest
    | .reschedule n =>
      if fail (.update r.id (serializeMinutes n)) then store
      else runRows fail now (applyUpdate store r.id (serializeMinutes n)) rest
    | .fireDelete =>
      if fail (.delete r.id) then store
      else runRows fail now (applyDelete store r.id) rest

/-- One scheduler tick under a storage-failure oracle: read the snapshot
(`SELECT id, text, due_at, repeat_rule FROM reminders`), then run the row
loop against the live store. -/
def tickF (fail : StorageOp → Bool) (now : Nat) (store : List Reminder) : List Reminder :=
  runRows fail now store store

/-- One scheduler tick on which every storage write succeeds. -/
def tick (now : Nat) (store : List Reminder) : List Reminder :=
  tickF (fun _ => false) now store

/-- The effect of one tick on a single row, read off `rowStep`: kept
unchanged, re-persisted with the minute-serialized advanced due time, or
deleted. -/
def fireOutcome (now : Nat) (r : Reminder) : Option Reminder :=
  match rowStep now r with
  | .keep => some r
  | .reschedule n => some { r with due_at := .valid (serializeMinutes n) }
  | .fireDelete => none

/-- The recurrence rules the table recognizes. -/
def periodRules : List String := ["hourly", "daily", "weekly"]

end Atlas

namespace Atlas

/-! ### Dispatcher, planner adapter, registry, input surfaces -/

/-- The argument payload of a planned action (`action.get("args", {})`),
kept as an opaque key/value list: the dispatcher forwards it unexamined. -/
def Args : Type := List (String × String)

instance : DecidableEq Args := by unfold Args; infer_instance

/-- An action request inside a plan: `{"name": ..., "args": ...}`. -/
structure ActionReq where
  name : String
  args : Args
  deriving DecidableEq

/-- The value `plan_with_openai` returns: a reply string and an optional
action request. -/
structure Plan where
  reply : String
  action : Option ActionReq
  deriving DecidableEq

/-- A handler body: either returns a result string or raises with a
message (Python exception rendered by `str`). -/
def Handler : Type := Args → Except String String

/-- A row of the `logs` table as `db_log` writes it: the `utterance`
payload `{"text": ...}` or the `action` payload
`{"name": ..., "args": ..., "result": ...}`. -/
inductive LogEntry where
  | utterance (text : String)
  | action (name : String) (args : Args) (result : String)
  deriving DecidableEq

/-- Observable outcome of one `handle_user_text` call: the log rows
appended, the console lines printed, and the message of an exception that
propagated out of the call (`none` when the call returned normally). -/
structure DispatchResult where
  log : List LogEntry
  console : List String
  raised : Option String
  deriving DecidableEq

/-- `handle_user_text`, parameterized by a storage oracle `dbErr` (the
outcome of each `db_log` insert: `none` on success, `some msg` when
sqlite raises `msg`), the action registry, and the planner.

Faithful control flow: the leading `db_log("utterance", ...)` is not
inside any `try`, so its failure propagates out of the function and
nothing further runs. The reply is printed only when non-empty. A known
action's handler call and the success-path `db_log("action", ...)` share
one `try`; either failure is caught by `except Exception as e`, which
prints the error and appends nothing. An unknown name only prints. -/
def handle_user_text (dbErr : LogEntry → Option String)
    (registry : String → Option Handler) (planner : String → Plan)
    (user_text : String) : DispatchResult :=
  let uEntry := LogEntry.utterance user_text
  match dbErr uEntry with
  | some msg => { log := [], console := [], raised := some msg }
  | none =>
    let plan := planner user_text
    let consoleReply := if plan.reply = "" then [] else [" ASSISTANT: " ++ plan.reply]
    match plan.action with
    | none => { log := [uEntry], console := consoleReply, raised := none }
    | some a =>
      match registry a.name with
      | none =>
        { log := [uEntry], console := consoleReply ++ ["unknown action: " ++ a.name]
          raised := none }
      | some fn =>
        match fn a.args with
        | .error e =>
          { log := [uEntry]
            console := consoleReply ++ ["[action:" ++ a.name ++ "] error: " ++ e]
            raised := none }
        | .ok res =>
          let aEntry := LogEntry.action a.name a.args res
          match dbErr aEntry with
          | none =>
            { log := [uEntry, aEntry]
              console := consoleReply ++ ["[action:" ++ a.name ++ "] " ++ res]
              raised := none }
          | some msg =>
            { log := [uEntry]
              console := consoleReply ++ ["[action:" ++ a.name ++ "] " ++ res,
                "[action:" ++ a.name ++ "] error: " ++ msg]
              raised := none }

/-- The keys of the `ACTIONS` dict, in source order. -/
def ACTIONS_keys : List String :=
  ["open_app", "open_url", "weather", "set_reminder", "system_stats",
   "clipboard_set", "clipboard_get", "file_move", "file_delete",
   "search", "switch_desktop", "hotkeys"]

/-- The `ACTIONS` registry: a lookup over exactly `ACTIONS_keys`, with the
handler bodies (which call into the OS and network) abstracted as a
parameter. `ACTIONS.get(name)` returns `None` for every other name. -/
def ACTIONS (impls : String → Handler) : String → Option Handler :=
  fun n => if n ∈ ACTIONS_keys then some (impls n) else none

/-- `plan_with_openai`. With no configured client (`_openai_client` is
`None`: missing key or failed import) it returns the deterministic
fallback `{"reply": "(OpenAI not configured) " + user_text, "action":
None}`. With a client, a successful call yields the parsed reply
(`j.get("reply") or ""`) and action; any exception in the call or in
parsing yields `{"reply": "NLU error: " + e, "action": None}`. -/
def plan_with_openai (client : Option (String → Except String Plan))
    (user_text : String) : Plan :=
  match client with
  | none => { reply := "(OpenAI not configured) " ++ user_text, action := none }
  | some complete =>
    match complete user_text with
    | .ok j => { reply := j.reply, action := j.action }
    | .error e => { reply := "NLU error: " ++ e, action := none }

/-- Python `str.strip()`: drop leading and trailing whitespace, modelled
on the character list of the string. -/
def pyStrip (s : String) : String :=
  ⟨((s.data.dropWhile Char.isWhitespace).reverse.dropWhile Char.isWhitespace).reverse⟩

/-- Python `str.lower()`, modelled on the character list of the string. -/
def pyLower (s : String) : String :=
  ⟨s.data.map Char.toLower⟩

/-- What one iteration of `cli_loop` does with a raw input line. -/
inductive CliStep where
  | quit
  | skip
  | dispatch (text : String)
  deriving DecidableEq

/-- One `cli_loop` iteration: `input("you> ").strip()`; an empty result is
skipped, `exit`/`quit` (case-insensitive) breaks, anything else is passed
to `handle_user_text`. -/
def cli_step (line : String) : CliStep :=
  let user_text := pyStrip line
  if user_text = "" then .skip
  else if pyLower user_text = "exit" ∨ pyLower user_text = "quit" then .quit
  else .dispatch user_text

/-- The hotkey prompt (`on_hotkey` in `register_hotkey`): the line typed
after Ctrl+Alt+A is passed to `handle_user_text` verbatim — no strip, no
emptiness check. -/
def hotkey_step (line : String) : Option String := some line

/-- One recognized utterance in `VoskListener.run` while the wake word has
armed the listener (`self.active`): the transcript is lowercased, an empty
string is skipped (`if not text: continue`), otherwise it is dispatched;
when not armed nothing is dispatched (the branch only checks the wake
word). -/
def vosk_step (active : Bool) (recognized : String) : Option String :=
  let text := pyLower recognized
  if text = "" then none
  else if active then some text else none

end Atlas

namespace Atlas

/-! ### Closed form of one failure-free scheduler tick -/

/-- What the tick does to a live row `x`, decided by the snapshot row with
the same id: keep `x`, rewrite its due time, or delete it; rows without a
snapshot counterpart are untouched. -/
def snapOutcome (now : Nat) (rows : List Reminder) (x : Reminder) : Option Reminder :=
  match rows.find? (fun r => r.id == x.id) with
  | none => some x
  | some r =>
    match rowStep now r with
    | .keep => some x
    | .reschedule n => some { x with due_at := .valid (serializeMinutes n) }
    | .fireDelete => none

theorem find?_id_eq_none {l : List Reminder} {i : Nat}
    (h : i ∉ l.map (·.id)) : l.find? (fun r => r.id == i) = none := by
  refine List.find?_eq_none.mpr fun x hx hbx => ?_
  exact h (List.mem_map.mpr ⟨x, hx, by simpa using hbx⟩)

theorem snapOutcome_nil (now : Nat) (x : Reminder) : snapOutcome now [] x = some x := rfl

theorem snapOutcome_of_not_mem (now : Nat) (rows : List Reminder) (x : Reminder)
    (h : x.id ∉ rows.map (·.id)) : snapOutcome now rows x = some x := by
  unfold snapOutcome
  rw [find?_id_eq_none h]

theorem snapOutcome_cons_of_ne (now : Nat) (r : Reminder) (rest : List Reminder)
    (x : Reminder) (hne : r.id ≠ x.id) :
    snapOutcome now (r :: rest) x = snapOutcome now rest x := by
  unfold snapOutcome
  rw [List.find?_cons_of_neg _ (by simpa using hne)]

theorem snapOutcome_cons_of_eq (now : Nat) (r : Reminder) (rest : List Reminder)
    (x : Reminder) (heq : r.id = x.id) :
    snapOutcome now (r :: rest) x =
      (match rowStep now r with
       | .keep => some x
       | .reschedule n => some { x with due_at := .valid (serializeMinutes n) }
       | .fireDelete => none) := by
  unfold snapOutcome
  rw [List.find?_cons_of_pos _ (by simpa using heq)]

theorem runRows_closed (now : Nat) (rows : List Reminder) :
    ∀ store : List Reminder, (rows.map (·.id)).Nodup →
      runRows (fun _ => false) now store rows = store.filterMap (snapOutcome now rows) := by
  induction rows with
  | nil =>
    intro store _
    have h : snapOutcome now [] = some := funext fun x => rfl
    rw [h, List.filterMap_some]
    rfl
  | cons r rest ih =>
    intro store hnd
    rw [List.map_cons, List.nodup_cons] at hnd
    obtain ⟨hid, hrest⟩ := hnd
    cases hs : rowStep now r with
    | keep =>
      have hrun : runRows (fun _ => false) now store (r :: rest) =
          runRows (fun _ => false) now store rest := by
        simp [runRows, hs]
      rw [hrun, ih store hrest]
      refine (List.filterMap_congr fun x _ => ?_)
      by_cases hx : r.id = x.id
      · rw [snapOutcome_cons_of_eq now r rest x hx, hs,
          snapOutcome_of_not_mem now rest x (hx ▸ hid)]
      · rw [snapOutcome_cons_of_ne now r rest x hx]
    | reschedule n =>
      have hrun : runRows (fun _ => false) now store (r :: rest) =
          runRows (fun _ => false) now (applyUpdate store r.id (serializeMinutes n)) rest := by
        simp [runRows, hs]
      rw [hrun, ih _ hrest, applyUpdate, List.filterMap_map]
      refine (List.filterMap_congr fun x _ => ?_)
      show snapOutcome now rest
          (if x.id = r.id then { x with due_at := DueAt.valid (serializeMinutes n) } else x) =
          snapOutcome now (r :: rest) x
      by_cases hx : r.id = x.id
      · rw [snapOutcome_cons_of_eq now r rest x hx, hs, if_pos hx.symm,
          snapOutcome_of_not_mem now rest _ (hx ▸ hid)]
      · rw [if_neg (fun h : x.id = r.id => hx h.symm),
          snapOutcome_cons_of_ne now r rest x hx]
    | fireDelete =>
      have hrun : runRows (fun _ => false) now store (r :: rest) =
          runRows (fun _ => false) now (applyDelete store r.id) rest := by
        simp [runRows, hs]
      rw [hrun, ih _ hrest, applyDelete, List.filterMap_filter]
      refine (List.filterMap_congr fun x _ => ?_)
      by_cases hx : r.id = x.id
      · rw [snapOutcome_cons_of_eq now r rest x hx, hs]
        have hcond : ¬ (decide (x.id ≠ r.id) = true) := by simp [hx.symm]
        rw [if_neg hcond]
      · have hcond : decide (x.id ≠ r.id) = true := by
          simpa using fun h : x.id = r.id => hx h.symm
        rw [if_pos hcond, snapOutcome_cons_of_ne now r rest x hx]

theorem find?_id_self {store : List Reminder} {x : Reminder}
    (hnd : (store.map (·.id)).Nodup) (hx : x ∈ store) :
    store.find? (fun r => r.id == x.id) = some x := by
  induction store with
  | nil => cases hx
  | cons a l ih =>
    rw [List.map_cons, List.nodup_cons] at hnd
    obtain ⟨ha, hl⟩ := hnd
    rcases List.mem_cons.mp hx with rfl | hx'
    · exact List.find?_cons_of_pos _ (by simp)
    · have hne : a.id ≠ x.id := by
        intro h
        exact ha (h ▸ List.mem_map.mpr ⟨x, hx', rfl⟩)
      rw [List.find?_cons_of_neg _ (by simpa using hne)]
      exact ih hl hx'

theorem snapOutcome_self (now : Nat) {store : List Reminder} {x : Reminder}
    (hnd : (store.map (·.id)).Nodup) (hx : x ∈ store) :
    snapOutcome now store x = fireOutcome now x := by
  unfold snapOutcome fireOutcome
  rw [find?_id_self hnd hx]

/-- On a store with pairwise distinct ids, one failure-free tick acts
independently on each row: it keeps, reschedules or deletes every row
according to that row's own `rowStep`. -/
theorem tick_eq_filterMap (now : Nat) (store : List Reminder)
    (hnd : (store.map (·.id)).Nodup) :
    tick now store = store.filterMap (fireOutcome now) := by
  rw [tick, tickF, runRows_closed now store store hnd]
  exact List.filterMap_congr fun x hx => snapOutcome_self now hnd hx

theorem fireOutcome_id {now : Nat} {x y : Reminder}
    (h : fireOutcome now x = some y) : y.id = x.id := by
  unfold fireOutcome at h
  cases hs : rowStep now x <;> rw [hs] at h
  · cases h; rfl
  · cases h; rfl
  · cases h

theorem mem_tick_of_fireOutcome {now : Nat} {store : List Reminder} {r r' : Reminder}
    (hnd : (store.map (·.id)).Nodup) (hmem : r ∈ store)
    (h : fireOutcome now r = some r') : r' ∈ tick now store := by
  rw [tick_eq_filterMap now store hnd]
  exact List.mem_filterMap.mpr ⟨r, hmem, h⟩

theorem id_absent_of_fireDelete {now : Nat} {store : List Reminder} {r : Reminder}
    (hnd : (store.map (·.id)).Nodup) (hmem : r ∈ store)
    (hdel : fireOutcome now r = none) :
    ∀ r' ∈ tick now store, r'.id ≠ r.id := by
  intro r' hr' heq
  rw [tick_eq_filterMap now store hnd] at hr'
  obtain ⟨x, hx, hfx⟩ := List.mem_filterMap.mp hr'
  have hxid : x.id = r.id := by rw [← fireOutcome_id hfx, heq]
  have hxr : x = r := List.inj_on_of_nodup_map hnd hx hmem hxid
  rw [hxr, hdel] at hfx
  cases hfx

end Atlas

namespace Atlas

/-! ### Row-level facts about one tick -/

theorem rowStep_invalid {now : Nat} {r : Reminder}
    (hdue : r.due_at = .invalid) : rowStep now r = .keep := by
  unfold rowStep
  rw [hdue]

theorem rowStep_pending {now d : Nat} {r : Reminder}
    (hdue : r.due_at = .valid d) (h : ¬ d ≤ now) : rowStep now r = .keep := by
  simp [rowStep, hdue, h]

theorem rowStep_fire_none {now d : Nat} {r : Reminder}
    (hdue : r.due_at = .valid d) (h : d ≤ now) (hrule : r.repeat_rule = none) :
    rowStep now r = .fireDelete := by
  simp [rowStep, hdue, h, hrule]

theorem nextDue_daily (d : Nat) : nextDue "daily" d = some (d + 86400) := rfl

theorem nextDue_hourly (d : Nat) : nextDue "hourly" d = some (d + 3600) := rfl

theorem nextDue_weekly (d : Nat) : nextDue "weekly" d = some (d + 604800) := rfl

theorem nextDue_unknown {s : String} (d : Nat) (h : s ∉ periodRules) :
    nextDue s d = none := by
  have h1 : s ≠ "hourly" := by intro he; exact h (by rw [he]; decide)
  have h2 : s ≠ "daily" := by intro he; exact h (by rw [he]; decide)
  have h3 : s ≠ "weekly" := by intro he; exact h (by rw [he]; decide)
  unfold nextDue
  rw [if_neg h2, if_neg h1, if_neg h3]

theorem nextDue_of_mem {s : String} (hs : s ∈ periodRules) (d : Nat) :
    ∃ p, (p = 3600 ∨ p = 86400 ∨ p = 604800) ∧ nextDue s d = some (d + p) := by
  have : s = "hourly" ∨ s = "daily" ∨ s = "weekly" := by
    simpa [periodRules] using hs
  rcases this with rfl | rfl | rfl
  · exact ⟨3600, Or.inl rfl, nextDue_hourly d⟩
  · exact ⟨86400, Or.inr (Or.inl rfl), nextDue_daily d⟩
  · exact ⟨604800, Or.inr (Or.inr rfl), nextDue_weekly d⟩

theorem rowStep_fire_recurring {now d p : Nat} {r : Reminder} {s : String}
    (hdue : r.due_at = .valid d) (h : d ≤ now) (hrule : r.repeat_rule = some s)
    (hnext : nextDue s d = some (d + p)) : rowStep now r = .reschedule (d + p) := by
  have hs : s ≠ "" := by
    intro he
    rw [he, nextDue_unknown d (by decide)] at hnext
    cases hnext
  simp [rowStep, hdue, h, hrule, hs, hnext]

theorem rowStep_fire_unknown {now d : Nat} {r : Reminder} {s : String}
    (hdue : r.due_at = .valid d) (h : d ≤ now) (hrule : r.repeat_rule = some s)
    (hunk : s ∉ periodRules) : rowStep now r = .fireDelete := by
  by_cases hse : s = ""
  · simp [rowStep, hdue, h, hrule, hse]
  · simp [rowStep, hdue, h, hrule, hse, nextDue_unknown d hunk]

theorem fireOutcome_of_keep {now : Nat} {r : Reminder}
    (h : rowStep now r = .keep) : fireOutcome now r = some r := by
  unfold fireOutcome
  rw [h]

theorem fireOutcome_of_reschedule {now n : Nat} {r : Reminder}
    (h : rowStep now r = .reschedule n) :
    fireOutcome now r = some { r with due_at := .valid (serializeMinutes n) } := by
  unfold fireOutcome
  rw [h]

theorem fireOutcome_of_fireDelete {now : Nat} {r : Reminder}
    (h : rowStep now r = .fireDelete) : fireOutcome now r = none := by
  unfold fireOutcome
  rw [h]

theorem serializeMinutes_ne_of_mod {m : Nat} (h : m % 60 ≠ 0) :
    serializeMinutes m ≠ m := by
  intro hc
  apply h
  have h2 := Nat.mod_add_div m 60
  have h3 : m / 60 * 60 = m := hc
  omega

end Atlas

namespace Atlas

/-! ### Claims about the reminder scheduler -/

/-- C3 counterexample. The claim says a firing recurring reminder has "its
due timestamp advanced to due + period". For an hourly reminder due at
second 30 firing at now = 50, the code persists
`nxt.isoformat(timespec='minutes')`, so the stored due time is 3600, not
`due + period = 3630`: the timestamp the row ends up with differs from
`due + period`. -/
theorem C3_counterexample :
    tick 50 [{ id := 1, text := "t", due_at := .valid 30, repeat_rule := some "hourly" }] =
      [{ id := 1, text := "t", due_at := .valid 3600, repeat_rule := some "hourly" }] ∧
    DueAt.valid 3600 ≠ DueAt.valid (30 + 3600) := by
  exact ⟨by decide, by decide⟩

/-- Claim C3, amended: on a tick at time `now` over a store with distinct
ids, a reminder with recurrence rule in {hourly, daily, weekly} is never
deleted by firing: if it fires (`due ≤ now`) the store afterwards
contains the row with its due timestamp advanced to `due + period`
persisted at minute precision, and if it does not fire the row is kept
unchanged; while a reminder with recurrence `none` is deleted exactly at
the tick in which it fires: it is gone after a tick with `due ≤ now`, and
untouched by a tick with `now < due`. -/
theorem C3_recurring_kept_nonrecurring_deleted_once
    (now : Nat) (store : List Reminder) (r : Reminder) (d : Nat)
    (hnd : (store.map (·.id)).Nodup) (hmem : r ∈ store)
    (hdue : r.due_at = .valid d) :
    (∀ s ∈ periodRules, r.repeat_rule = some s → d ≤ now →
      ∃ p, nextDue s d = some (d + p) ∧
        { r with due_at := .valid (serializeMinutes (d + p)) } ∈ tick now store) ∧
    (∀ s ∈ periodRules, r.repeat_rule = some s → ¬ d ≤ now → r ∈ tick now store) ∧
    (r.repeat_rule = none → d ≤ now → ∀ r' ∈ tick now store, r'.id ≠ r.id) ∧
    (r.repeat_rule = none → now < d → r ∈ tick now store) := by
  refine ⟨?_, ?_, ?_, ?_⟩
  · intro s hs hrule hfire
    obtain ⟨p, _, hnext⟩ := nextDue_of_mem hs d
    exact ⟨p, hnext, mem_tick_of_fireOutcome hnd hmem
      (fireOutcome_of_reschedule (rowStep_fire_recurring hdue hfire hrule hnext))⟩
  · intro s _ _ hpend
    exact mem_tick_of_fireOutcome hnd hmem
      (fireOutcome_of_keep (rowStep_pending hdue hpend))
  · intro hrule hfire
    exact id_absent_of_fireDelete hnd hmem
      (fireOutcome_of_fireDelete (rowStep_fire_none hdue hfire hrule))
  · intro _ hpend
    exact mem_tick_of_fireOutcome hnd hmem
      (fireOutcome_of_keep (rowStep_pending hdue (Nat.not_le_of_lt hpend)))

/-- Witness for C3 on a concrete store: the daily reminder (id 1) due at
second 50 survives the tick that fires it, re-persisted with its due
advanced by one day at minute precision; the rule-less reminder (id 2) is
gone after the tick that fires it. -/
theorem C3_witness :
    (∃ p, nextDue "daily" 50 = some (50 + p) ∧
      ({ id := 1, text := "a", due_at := .valid (serializeMinutes (50 + p)),
          repeat_rule := some "daily" } : Reminder) ∈
        tick 100 [{ id := 1, text := "a", due_at := .valid 50, repeat_rule := some "daily" },
          { id := 2, text := "b", due_at := .valid 40, repeat_rule := none }]) ∧
    (∀ r' ∈ tick 100 [{ id := 1, text := "a", due_at := .valid 50, repeat_rule := some "daily" },
        { id := 2, text := "b", due_at := .valid 40, repeat_rule := none }], r'.id ≠ 2) := by
  refine ⟨?_, ?_⟩
  · exact (C3_recurring_kept_nonrecurring_deleted_once 100 _
      { id := 1, text := "a", due_at := .valid 50, repeat_rule := some "daily" } 50
      (by decide) (by decide) rfl).1 "daily" (by decide) rfl (by decide)
  · exact (C3_recurring_kept_nonrecurring_deleted_once 100 _
      { id := 2, text := "b", due_at := .valid 40, repeat_rule := none } 40
      (by decide) (by decide) rfl).2.2.1 rfl (by decide)

end Atlas

namespace Atlas

/-- C4 counterexample. The claim says a daily reminder due at T that fires
is afterwards stored with due = T + 24 hours. For T = 30 (a due time with
a nonzero seconds component) firing at now = 100, the code stores the
minute-serialized value 86400, not T + 86400 = 86430. -/
theorem C4_counterexample :
    tick 100 [{ id := 7, text := "x", due_at := .valid 30, repeat_rule := some "daily" }] =
      [{ id := 7, text := "x", due_at := .valid 86400, repeat_rule := some "daily" }] ∧
    (86400 : Nat) ≠ 30 + 86400 := by
  exact ⟨by decide, by decide⟩

/-- Claim C4, amended: a reminder due at T with rule "daily" that fires at
a tick with T ≤ now is afterwards in the store with due = T + 24 hours
truncated to whole minutes (equal to T + 24h whenever T is minute-
aligned); the period table is exactly {hourly: +1h, daily: +1d, weekly:
+7d}, every other rule having no period; and a reminder with no rule and
due ≤ now is absent from the store after the tick that fires it. -/
theorem C4_daily_reschedule_table_and_delete
    (now : Nat) (store : List Reminder) (r : Reminder) (T : Nat)
    (hnd : (store.map (·.id)).Nodup) (hmem : r ∈ store)
    (hdue : r.due_at = .valid T) (hfire : T ≤ now) :
    (r.repeat_rule = some "daily" →
      { r with due_at := .valid (serializeMinutes (T + 86400)) } ∈ tick now store) ∧
    (nextDue "hourly" T = some (T + 3600) ∧ nextDue "daily" T = some (T + 86400) ∧
      nextDue "weekly" T = some (T + 604800) ∧
      ∀ s ∉ periodRules, nextDue s T = none) ∧
    (r.repeat_rule = none → ∀ r' ∈ tick now store, r'.id ≠ r.id) := by
  refine ⟨?_, ⟨nextDue_hourly T, nextDue_daily T, nextDue_weekly T, ?_⟩, ?_⟩
  · intro hrule
    exact mem_tick_of_fireOutcome hnd hmem
      (fireOutcome_of_reschedule (rowStep_fire_recurring hdue hfire hrule (nextDue_daily T)))
  · intro s hs
    exact nextDue_unknown T hs
  · intro hrule
    exact id_absent_of_fireDelete hnd hmem
      (fireOutcome_of_fireDelete (rowStep_fire_none hdue hfire hrule))

/-- Witness for C4 at a minute-aligned due time T = 60, now = 100: the
daily reminder is re-persisted with due 86460 = T + 24h. -/
theorem C4_witness :
    ({ id := 1, text := "a", due_at := .valid (serializeMinutes (60 + 86400)),
        repeat_rule := some "daily" } : Reminder) ∈
      tick 100 [{ id := 1, text := "a", due_at := .valid 60, repeat_rule := some "daily" }] ∧
    serializeMinutes (60 + 86400) = 60 + 86400 := by
  refine ⟨?_, by decide⟩
  exact (C4_daily_reschedule_table_and_delete 100 _
    { id := 1, text := "a", due_at := .valid 60, repeat_rule := some "daily" } 60
    (by decide) (by decide) rfl (by decide)).1 rfl

/-- Claim C5 (confirmed): a reminder whose rule string is set but not one
of {hourly, daily, weekly} is treated by a firing tick exactly as a
reminder with no rule: it is deleted (no next due time computed) and the
post-tick store is identical to the store obtained by replacing its rule
with `none` before the tick. -/
theorem C5_unknown_rule_parity_with_no_rule
    (now : Nat) (l₁ l₂ : List Reminder) (r : Reminder) (d : Nat) (s : String)
    (hnd : ((l₁ ++ r :: l₂).map (·.id)).Nodup)
    (hdue : r.due_at = .valid d) (hfire : d ≤ now)
    (hrule : r.repeat_rule = some s) (hunk : s ∉ periodRules) :
    tick now (l₁ ++ r :: l₂) = tick now (l₁ ++ { r with repeat_rule := none } :: l₂) ∧
    (∀ r' ∈ tick now (l₁ ++ r :: l₂), r'.id ≠ r.id) := by
  have hmem : r ∈ l₁ ++ r :: l₂ := List.mem_append_right l₁ (List.mem_cons_self r l₂)
  have hrow : rowStep now r = .fireDelete := rowStep_fire_unknown hdue hfire hrule hunk
  have hrow2 : rowStep now { r with repeat_rule := none } = .fireDelete :=
    rowStep_fire_none (r := { r with repeat_rule := none }) hdue hfire rfl
  have hnd2 : ((l₁ ++ { r with repeat_rule := none } :: l₂).map (·.id)).Nodup := by
    have hmapeq : (l₁ ++ { r with repeat_rule := none } :: l₂).map (·.id) =
        (l₁ ++ r :: l₂).map (·.id) := by
      simp
    rw [hmapeq]
    exact hnd
  refine ⟨?_, id_absent_of_fireDelete hnd hmem (fireOutcome_of_fireDelete hrow)⟩
  rw [tick_eq_filterMap now _ hnd, tick_eq_filterMap now _ hnd2,
    List.filterMap_append, List.filterMap_append, List.filterMap_cons, List.filterMap_cons,
    fireOutcome_of_fireDelete hrow, fireOutcome_of_fireDelete hrow2]

/-- Witness for C5: a fired "monthly" reminder leaves the same store as
the same reminder with no rule, and is gone afterwards. -/
theorem C5_witness :
    tick 100 [{ id := 1, text := "m", due_at := .valid 10, repeat_rule := some "monthly" },
        { id := 2, text := "k", due_at := .valid 500, repeat_rule := none }] =
      tick 100 [{ id := 1, text := "m", due_at := .valid 10, repeat_rule := none },
        { id := 2, text := "k", due_at := .valid 500, repeat_rule := none }] ∧
    (∀ r' ∈ tick 100 [{ id := 1, text := "m", due_at := .valid 10, repeat_rule := some "monthly" },
        { id := 2, text := "k", due_at := .valid 500, repeat_rule := none }], r'.id ≠ 1) := by
  exact C5_unknown_rule_parity_with_no_rule 100 []
    [{ id := 2, text := "k", due_at := .valid 500, repeat_rule := none }]
    { id := 1, text := "m", due_at := .valid 10, repeat_rule := some "monthly" } 10 "monthly"
    (by decide) rfl (by decide) rfl (by decide)

end Atlas

namespace Atlas

/-- Claim C10 (confirmed): when the scheduler reschedules a recurring
reminder due at T, it persists `(due + period).isoformat(timespec=
'minutes')`: the stored new due time is T + period truncated to whole
minutes, and whenever T has a nonzero seconds component the truncation is
strict, so the sub-minute part of the original due time is discarded. -/
theorem C10_reschedule_persists_minute_precision
    (now : Nat) (store : List Reminder) (r : Reminder) (T : Nat) (s : String)
    (hnd : (store.map (·.id)).Nodup) (hmem : r ∈ store)
    (hdue : r.due_at = .valid T) (hfire : T ≤ now)
    (hrule : r.repeat_rule = some s) (hs : s ∈ periodRules) :
    ∃ p, nextDue s T = some (T + p) ∧
      { r with due_at := .valid (serializeMinutes (T + p)) } ∈ tick now store ∧
      (T % 60 ≠ 0 → serializeMinutes (T + p) ≠ T + p) := by
  obtain ⟨p, hp, hnext⟩ := nextDue_of_mem hs T
  refine ⟨p, hnext, ?_, ?_⟩
  · exact mem_tick_of_fireOutcome hnd hmem
      (fireOutcome_of_reschedule (rowStep_fire_recurring hdue hfire hrule hnext))
  · intro hmod
    have hdvd : p % 60 = 0 := by rcases hp with rfl | rfl | rfl <;> decide
    have : (T + p) % 60 ≠ 0 := by omega
    exact serializeMinutes_ne_of_mod this

/-- Witness for C10: a weekly reminder due at T = 90 (seconds component
30) fires at now = 100; the persisted due time is 604800 + 60, strictly
below T + 604800. -/
theorem C10_witness :
    ∃ p, nextDue "weekly" 90 = some (90 + p) ∧
      ({ id := 4, text := "w", due_at := .valid (serializeMinutes (90 + p)),
          repeat_rule := some "weekly" } : Reminder) ∈
        tick 100 [{ id := 4, text := "w", due_at := .valid 90, repeat_rule := some "weekly" }] ∧
      (90 % 60 ≠ 0 → serializeMinutes (90 + p) ≠ 90 + p) := by
  exact C10_reschedule_persists_minute_precision 100 _
    { id := 4, text := "w", due_at := .valid 90, repeat_rule := some "weekly" } 90 "weekly"
    (by decide) (by decide) rfl (by decide) rfl (by decide)

/-- The storage-failure oracle of the C6 counterexample: the `DELETE` of
reminder id 1 raises; every other write succeeds. -/
def c6_fail : StorageOp → Bool := fun op => decide (op = .delete 1)

/-- C6 counterexample. Two rule-less reminders are both due at now = 5.
A storage error while deleting reminder 1 is caught by the tick-level
`except`, not a per-reminder one: the tick ends at once, so reminder 2 —
whose processing the claim says is unaffected — is not processed either
(it stays in the store), whereas the failure-free tick deletes both. -/
theorem C6_counterexample :
    tickF c6_fail 5 [{ id := 1, text := "a", due_at := .valid 0, repeat_rule := none },
        { id := 2, text := "b", due_at := .valid 0, repeat_rule := none }] =
      [{ id := 1, text := "a", due_at := .valid 0, repeat_rule := none },
        { id := 2, text := "b", due_at := .valid 0, repeat_rule := none }] ∧
    tick 5 [{ id := 1, text := "a", due_at := .valid 0, repeat_rule := none },
        { id := 2, text := "b", due_at := .valid 0, repeat_rule := none }] = [] := by
  exact ⟨by decide, by decide⟩

/-- Claim C6, amended: an unparsable due timestamp is isolated to its
reminder — the row is skipped (kept) and every other reminder of the tick
is processed exactly as it would be without it; but a storage error while
rescheduling or deleting a reminder is caught by the tick-level handler:
the loop does not crash and the failing reminder is not removed, yet the
tick ends there, leaving the remaining reminders of the snapshot
unprocessed until the next tick. -/
theorem C6_parse_isolated_storage_aborts_tick (now : Nat) :
    (∀ (l₁ l₂ : List Reminder) (r : Reminder),
      ((l₁ ++ r :: l₂).map (·.id)).Nodup → r.due_at = .invalid →
      tick now (l₁ ++ r :: l₂) = tick now l₁ ++ r :: tick now l₂) ∧
    (∀ (fail : StorageOp → Bool) (r : Reminder) (rest : List Reminder),
      rowStep now r = .fireDelete → fail (.delete r.id) = true →
      tickF fail now (r :: rest) = r :: rest) ∧
    (∀ (fail : StorageOp → Bool) (r : Reminder) (rest : List Reminder) (n : Nat),
      rowStep now r = .reschedule n → fail (.update r.id (serializeMinutes n)) = true →
      tickF fail now (r :: rest) = r :: rest) := by
  refine ⟨?_, ?_, ?_⟩
  · intro l₁ l₂ r hnd hinv
    have hmaps : (l₁ ++ r :: l₂).map (·.id) = l₁.map (·.id) ++ r.id :: l₂.map (·.id) := by
      simp
    have hnd' := hnd
    rw [hmaps, List.nodup_append] at hnd'
    obtain ⟨hnd1, hnd2, _⟩ := hnd'
    rw [List.nodup_cons] at hnd2
    rw [tick_eq_filterMap now _ hnd, tick_eq_filterMap now l₁ hnd1,
      tick_eq_filterMap now l₂ hnd2.2, List.filterMap_append, List.filterMap_cons,
      fireOutcome_of_keep (rowStep_invalid hinv)]
  · intro fail r rest hrow hfail
    simp [tickF, runRows, hrow, hfail]
  · intro fail r rest n hrow hfail
    simp [tickF, runRows, hrow, hfail]

/-- Witness for C6: an invalid-due row between two valid ones is kept
while both neighbours are processed; and with a failing `DELETE` on the
first row, nothing of the tick happens. -/
theorem C6_witness :
    tick 7 ([{ id := 1, text := "a", due_at := .valid 3, repeat_rule := none }] ++
        { id := 9, text := "bad", due_at := .invalid, repeat_rule := none } ::
        [{ id := 2, text := "b", due_at := .valid 4, repeat_rule := none }]) =
      tick 7 [{ id := 1, text := "a", due_at := .valid 3, repeat_rule := none }] ++
        { id := 9, text := "bad", due_at := .invalid, repeat_rule := none } ::
        tick 7 [{ id := 2, text := "b", due_at := .valid 4, repeat_rule := none }] ∧
    tickF c6_fail 7 [{ id := 1, text := "a", due_at := .valid 0, repeat_rule := none },
        { id := 3, text := "c", due_at := .valid 0, repeat_rule := none }] =
      [{ id := 1, text := "a", due_at := .valid 0, repeat_rule := none },
        { id := 3, text := "c", due_at := .valid 0, repeat_rule := none }] := by
  refine ⟨?_, ?_⟩
  · exact (C6_parse_isolated_storage_aborts_tick 7).1
      [{ id := 1, text := "a", due_at := .valid 3, repeat_rule := none }]
      [{ id := 2, text := "b", due_at := .valid 4, repeat_rule := none }]
      { id := 9, text := "bad", due_at := .invalid, repeat_rule := none }
      (by decide) rfl
  · exact (C6_parse_isolated_storage_aborts_tick 7).2.1 c6_fail
      { id := 1, text := "a", due_at := .valid 0, repeat_rule := none }
      [{ id := 3, text := "c", due_at := .valid 0, repeat_rule := none }]
      (by decide) (by decide)

end Atlas

namespace Atlas

/-! ### Claims about the dispatcher, the planner adapter and the input
surfaces -/

/-- A storage oracle on which every `db_log` insert succeeds. -/
def dbAllOk : LogEntry → Option String := fun _ => none

/-- Stub handler bodies for the registry skeleton. -/
def stubImpls : String → Handler := fun _ _ => .ok ""

/-- Registry of the C1 counterexample: one known action whose handler
raises. -/
def c1_registry : String → Option Handler :=
  fun n => if n = "boom" then some (fun _ => .error "kaboom") else none

/-- Planner of the C1 counterexample: empty reply, plans the known action
`boom`. -/
def c1_planner : String → Plan :=
  fun _ => { reply := "", action := some { name := "boom", args := [] } }

/-- C1 counterexample. The handler of the planned action `boom` raises
`kaboom`; the dispatcher catches it and prints the rendered error, but the
log of the call holds only the utterance entry — `db_log("action", ...)`
sits inside the same `try` after the handler call, so it is skipped and no
log entry records the error as the action's result: the failed action is
not auditable in the log, contradicting the claim. -/
theorem C1_counterexample :
    handle_user_text dbAllOk c1_registry c1_planner "hi" =
      { log := [.utterance "hi"], console := ["[action:boom] error: kaboom"],
        raised := none } := by
  decide

/-- Claim C1, amended: when the plan names a known action and the handler
raises, the dispatcher catches the exception, renders it as an error
string, reports it on the console, and continues — the process is not
stopped and the utterance's own log entry stays — but it appends no log
entry recording the error as the action's result, so the failure is not
auditable in the log. -/
theorem C1_handler_failure_caught_not_logged
    (dbErr : LogEntry → Option String) (registry : String → Option Handler)
    (planner : String → Plan) (u name rep e : String) (args : Args) (fn : Handler)
    (hdb : dbErr (.utterance u) = none)
    (hplan : planner u = { reply := rep, action := some { name := name, args := args } })
    (hreg : registry name = some fn)
    (hfn : fn args = .error e) :
    handle_user_text dbErr registry planner u =
      { log := [.utterance u]
        console := (if rep = "" then [] else [" ASSISTANT: " ++ rep]) ++
          ["[action:" ++ name ++ "] error: " ++ e]
        raised := none } := by
  simp only [handle_user_text, hdb, hplan, hreg, hfn]

/-- Witness for C1 at concrete inputs. -/
theorem C1_witness :
    handle_user_text dbAllOk c1_registry c1_planner "set a timer" =
      { log := [.utterance "set a timer"], console := ["[action:boom] error: kaboom"],
        raised := none } := by
  have h := C1_handler_failure_caught_not_logged dbAllOk c1_registry c1_planner
    "set a timer" "boom" "" "kaboom" [] (fun _ => .error "kaboom") rfl rfl rfl rfl
  simpa using h

/-- C2 counterexample. With no reasoning client configured, the fallback
reply is the string "(OpenAI not configured) " prepended to the
utterance, not the "(unavailable) " prefix the claim states. -/
theorem C2_counterexample :
    plan_with_openai none "hello" =
      { reply := "(OpenAI not configured) hello", action := none } ∧
    ("(OpenAI not configured) hello" : String) ≠ "(unavailable) hello" := by
  exact ⟨rfl, by decide⟩

theorem append_ne_empty_of_ne {s : String} (u : String) (h : s ≠ "") : s ++ u ≠ "" := by
  intro hc
  apply h
  have hlen := congrArg String.length hc
  rw [String.length_append] at hlen
  have hs : s.length = 0 := by
    have hz : String.length "" = 0 := rfl
    omega
  cases s with
  | mk data =>
    cases data with
    | nil => rfl
    | cons c cs => simp [String.length] at hs

/-- Claim C2, amended: with the reasoning service unavailable or
misconfigured (no client), the planner deterministically returns reply
`"(OpenAI not configured) " ++ u` with a null action, and a dispatcher
call using this planner attempts no action: it only logs the utterance
and prints the fallback reply. -/
theorem C2_unavailable_fallback (u : String) (dbErr : LogEntry → Option String)
    (registry : String → Option Handler)
    (hdb : dbErr (.utterance u) = none) :
    plan_with_openai none u =
      { reply := "(OpenAI not configured) " ++ u, action := none } ∧
    handle_user_text dbErr registry (plan_with_openai none) u =
      { log := [.utterance u],
        console := [" ASSISTANT: " ++ ("(OpenAI not configured) " ++ u)],
        raised := none } := by
  refine ⟨rfl, ?_⟩
  have hne : ("(OpenAI not configured) " ++ u) ≠ "" :=
    append_ne_empty_of_ne u (by decide)
  simp only [handle_user_text, hdb, plan_with_openai, if_neg hne]

/-- Witness for C2 at a concrete utterance. -/
theorem C2_witness :
    plan_with_openai none "hello" =
      { reply := "(OpenAI not configured) " ++ "hello", action := none } ∧
    handle_user_text dbAllOk (ACTIONS stubImpls) (plan_with_openai none) "hello" =
      { log := [.utterance "hello"],
        console := [" ASSISTANT: " ++ ("(OpenAI not configured) " ++ "hello")],
        raised := none } :=
  C2_unavailable_fallback "hello" dbAllOk (ACTIONS stubImpls) rfl

end Atlas

namespace Atlas

/-- Storage oracle of the C7 counterexample: the utterance insert raises
`disk full`; any other insert succeeds. -/
def c7_dbErr : LogEntry → Option String := fun entry =>
  match entry with
  | .utterance _ => some "disk full"
  | .action _ _ _ => none

/-- Planner of the C7 counterexample: a non-empty reply and a known
action, so that aborted processing is observable. -/
def c7_planner : String → Plan :=
  fun _ => { reply := "hello back", action := some { name := "clipboard_get", args := [] } }

/-- Handler bodies used with the registry skeleton in the C7 theorems. -/
def c7_impls : String → Handler := fun _ _ => .ok "empty"

/-- C7 counterexample. `db_log("utterance", ...)` is the first statement
of `handle_user_text` and is not inside any `try`: when it raises, the
exception propagates — the reply is never printed, the planner's action is
never executed, nothing is logged. The claim that a log failure "is
reported but does not abort the remaining processing" fails. -/
theorem C7_counterexample :
    handle_user_text c7_dbErr (ACTIONS c7_impls) c7_planner "hi" =
      { log := [], console := [], raised := some "disk full" } := by
  decide

/-- Claim C7, amended: the utterance log entry is appended first — every
normal return has `{kind: utterance}` as its first log row — but the
append is not guarded: when it raises, the exception propagates out of the
dispatcher and the remaining processing of the utterance (reply delivery,
planner-driven action, any further logging) is aborted. -/
theorem C7_utterance_logged_first_failure_aborts
    (dbErr : LogEntry → Option String) (registry : String → Option Handler)
    (planner : String → Plan) (u : String) :
    (∀ msg, dbErr (.utterance u) = some msg →
      handle_user_text dbErr registry planner u =
        { log := [], console := [], raised := some msg }) ∧
    (dbErr (.utterance u) = none →
      ∃ rest, (handle_user_text dbErr registry planner u).log = .utterance u :: rest ∧
        (handle_user_text dbErr registry planner u).raised = none) := by
  constructor
  · intro msg h
    simp [handle_user_text, h]
  · intro h
    rcases hact : (planner u).action with _ | a
    · exact ⟨[], by simp [handle_user_text, h, hact], by simp [handle_user_text, h, hact]⟩
    · rcases hreg : registry a.name with _ | fn
      · exact ⟨[], by simp [handle_user_text, h, hact, hreg],
          by simp [handle_user_text, h, hact, hreg]⟩
      · rcases hfn : fn a.args with e | res
        · exact ⟨[], by simp [handle_user_text, h, hact, hreg, hfn],
            by simp [handle_user_text, h, hact, hreg, hfn]⟩
        · rcases hdb2 : dbErr (.action a.name a.args res) with _ | msg
          · exact ⟨[.action a.name a.args res],
              by simp [handle_user_text, h, hact, hreg, hfn, hdb2],
              by simp [handle_user_text, h, hact, hreg, hfn, hdb2]⟩
          · exact ⟨[], by simp [handle_user_text, h, hact, hreg, hfn, hdb2],
              by simp [handle_user_text, h, hact, hreg, hfn, hdb2]⟩

/-- Witness for C7: both the aborting case (failing utterance insert) and
the normal case (utterance entry first in the log) at concrete inputs. -/
theorem C7_witness :
    handle_user_text c7_dbErr (ACTIONS c7_impls) c7_planner "hey" =
      { log := [], console := [], raised := some "disk full" } ∧
    (∃ rest, (handle_user_text dbAllOk (ACTIONS c7_impls) c7_planner "hey").log =
        .utterance "hey" :: rest ∧
      (handle_user_text dbAllOk (ACTIONS c7_impls) c7_planner "hey").raised = none) :=
  ⟨(C7_utterance_logged_first_failure_aborts c7_dbErr (ACTIONS c7_impls) c7_planner "hey").1
      "disk full" rfl,
    (C7_utterance_logged_first_failure_aborts dbAllOk (ACTIONS c7_impls) c7_planner "hey").2 rfl⟩

/-- Claim C8 (confirmed): when the plan names an action absent from the
`ACTIONS` registry, nothing raises: the dispatcher prints
`unknown action: <name>` — a line distinct from the handler-failure
rendering `[action:<name>] error: ...` — invokes no handler, and appends
nothing to the log beyond the utterance entry. -/
theorem C8_unknown_action_reported_not_raised
    (dbErr : LogEntry → Option String) (impls : String → Handler)
    (planner : String → Plan) (u name rep : String) (args : Args)
    (hname : name ∉ ACTIONS_keys)
    (hplan : planner u = { reply := rep, action := some { name := name, args := args } })
    (hdb : dbErr (.utterance u) = none) :
    handle_user_text dbErr (ACTIONS impls) planner u =
      { log := [.utterance u]
        console := (if rep = "" then [] else [" ASSISTANT: " ++ rep]) ++
          ["unknown action: " ++ name]
        raised := none } := by
  have hreg : ACTIONS impls name = none := by
    simp [ACTIONS, hname]
  simp only [handle_user_text, hdb, hplan, hreg]

/-- Planner of the C8 witness: plans the unregistered action
`do_the_thing`. -/
def c8_planner : String → Plan :=
  fun _ => { reply := "", action := some { name := "do_the_thing", args := [] } }

/-- Witness for C8 at concrete inputs. -/
theorem C8_witness :
    handle_user_text dbAllOk (ACTIONS stubImpls) c8_planner "do the thing" =
      { log := [.utterance "do the thing"], console := ["unknown action: do_the_thing"],
        raised := none } := by
  have h := C8_unknown_action_reported_not_raised dbAllOk stubImpls c8_planner
    "do the thing" "do_the_thing" "" [] (by decide) rfl rfl
  simpa using h

/-- C9 counterexample. The hotkey prompt (`on_hotkey`) passes the typed
line to `handle_user_text` verbatim — no strip, no emptiness check — so an
empty utterance does reach the dispatcher, which appends a log entry and
calls the planner (observable here through the fallback reply being
printed), contradicting the claim that every input surface discards it. -/
theorem C9_counterexample :
    hotkey_step "" = some "" ∧
    handle_user_text dbAllOk (ACTIONS stubImpls) (plan_with_openai none) "" =
      { log := [.utterance ""], console := [" ASSISTANT: (OpenAI not configured) "],
        raised := none } := by
  exact ⟨rfl, by decide⟩

/-- Claim C9, amended: the console loop strips each line and discards
empty or whitespace-only input before the dispatcher, and the voice
surface discards an empty transcript; but the hotkey prompt forwards its
line verbatim — empty and whitespace-only utterances included — to the
dispatcher. -/
theorem C9_only_cli_and_voice_discard_empty :
    (∀ s : String, pyStrip s = "" → cli_step s = .skip) ∧
    (∀ active : Bool, vosk_step active "" = none) ∧
    (∀ s : String, hotkey_step s = some s) := by
  refine ⟨?_, ?_, ?_⟩
  · intro s h
    simp [cli_step, h]
  · intro active
    rfl
  · intro s
    rfl

/-- Witness for C9 at concrete inputs. -/
theorem C9_witness :
    cli_step "  " = .skip ∧ vosk_step true "" = none ∧ hotkey_step " " = some " " :=
  ⟨C9_only_cli_and_voice_discard_empty.1 "  " (by decide),
    C9_only_cli_and_voice_discard_empty.2.1 true,
    C9_only_cli_and_voice_discard_empty.2.2 " "⟩

end Atlas
